import Mathlib

/-!
Verification of the Bible family-tree compiler
(`scripts/generate_bible_tree.py`) against its specification.

The Python script reads a node table and an edge table, filters rows to
numeric person ids, builds a children adjacency index, and recursively
compiles nested tree documents (one master tree rooted at id "420" and one
tree per cluster entry).

Shallow embedding conventions:
* a CSV row (`Dict[str, str]`) is an association list `Row`; `rowGet`
  models Python `row.get(key)` returning `Option String`;
* the node dictionary produced by `parse_nodes` is an association list
  `NodesMap` with `lookupRow` modelling `nodes[id]` / `id in nodes`;
* the children dictionary is a function `String → List String`, matching
  every use site `children_map.get(node_id, [])` (absent key and empty
  list are indistinguishable at all use sites in the script);
* the unbounded Python recursion of `build_tree` is modelled with an
  explicit fuel parameter (`build_treeF`); `none` models a computation
  that does not complete at that recursion depth (Python: stack
  exhaustion / RecursionError) or a failed dictionary lookup;
* `RuntimeError` raised by `build_master_tree` is modelled with
  `Except String`.
-/

/-- Python truthiness fallback `value or default` for an optional string:
`None` and the empty string are falsy. Models expressions such as
`row.get("name") or node_id` in `build_tree`. -/
def pyOr (v : Option String) (d : String) : String :=
  match v with
  | none => d
  | some s => if s = "" then d else s

/-- Python `str.isdigit()` on the relevant (ASCII) alphabet: true iff the
string is non-empty and every character is a decimal digit. Used by `main`
to keep only numeric node ids. -/
def pyIsDigit (s : String) : Bool :=
  !s.data.isEmpty && s.data.all Char.isDigit

/-- Python `" ".join(s.split())`: collapse every whitespace run to a single
space and drop leading/trailing whitespace. Used by `build_tree` to build
the single-line `tooltip` from `tooltipRaw`. -/
def normalizeWs (s : String) : String :=
  " ".intercalate ((s.split Char.isWhitespace).filter (fun piece => piece ≠ ""))

/-- A CSV row as produced by `csv.DictReader`: field name to raw string
value. `Dict[str, str]` in the script. -/
abbrev Row := List (String × String)

/-- Python `row.get(key)`: the value stored under `key`, or `None`. -/
def rowGet (row : Row) (key : String) : Option String :=
  match row.find? (fun p => p.1 = key) with
  | some p => some p.2
  | none => none

/-- The node dictionary `Dict[str, Dict[str, str]]` returned by
`parse_nodes`, as an ordered association list keyed by node id. -/
abbrev NodesMap := List (String × Row)

/-- Python `nodes.get(node_id)` / `nodes[node_id]` lookup (the script's
dicts have unique keys, so first-match lookup is the dict lookup). -/
def lookupRow (nodes : NodesMap) (node_id : String) : Option Row :=
  match nodes.find? (fun p => p.1 = node_id) with
  | some p => some p.2
  | none => none

/-- `parse_bool` from `generate_bible_tree.py`: strip and lowercase the
raw value; "true"/"1"/"yes" parse to `True`, "false"/"0"/"no" to `False`,
anything else (including `None`) to `None`. -/
def parse_bool (value : Option String) : Option Bool :=
  match value with
  | none => none
  | some v =>
    let normalized := (v.trim).toLower
    if normalized = "true" ∨ normalized = "1" ∨ normalized = "yes" then
      some true
    else if normalized = "false" ∨ normalized = "0" ∨ normalized = "no" then
      some false
    else
      none

/-- The list of numeric node ids, `[node_id for node_id in nodes_raw if
node_id.isdigit()]` in `main` (dict keys are iterated in insertion
order). -/
def numericIds (nodes_raw : NodesMap) : List String :=
  (nodes_raw.map (fun p => p.1)).filter pyIsDigit

/-- The filtered node dictionary `{node_id: nodes_raw[node_id] for node_id
in numeric_ids}` in `main`: since the keys of the raw dict are unique,
this is the raw dict restricted, in order, to numeric keys. -/
def filterNumericNodes (nodes_raw : NodesMap) : NodesMap :=
  nodes_raw.filter (fun p => pyIsDigit p.1)

/-- `parse_edges` from `generate_bible_tree.py`: starting from a children
dictionary mapping every valid id to `[]`, scan the edge rows in file
order and append `targetId` to `children[sourceId]` whenever both
endpoints are valid ids. The dictionary is represented by its lookup
function (every read of it in the script is `children_map.get(id, [])`). -/
def parse_edges (valid : List String) (edges : List (String × String)) :
    String → List String :=
  edges.foldl
    (fun children row =>
      if valid.contains row.1 && valid.contains row.2 then
        fun node_id => if node_id = row.1 then children node_id ++ [row.2] else children node_id
      else
        children)
    (fun _ => [])

/-- The compiled output node: the dict assembled by `build_tree` (and, for
the synthetic cluster root, by `build_cluster_tree`). Every key that the
script adds conditionally is an `Option`; `none` means the key is absent
from the dict. The three flags are `Option Bool` even though the script
only ever stores `True` under them: that presence law is proved, not
baked into the type. -/
inductive TreeNode where
  | mk
    (id : String)
    (name : String)
    (messiahLine levitical judge : Option Bool)
    (initiallyVisible hadCollapsedChildren : Option Bool)
    (tooltipRaw tooltip spouse : Option String)
    (refs : Option (List String))
    (children : Option (List TreeNode)) : TreeNode

def TreeNode.id : TreeNode → String
  | .mk i _ _ _ _ _ _ _ _ _ _ _ => i

def TreeNode.name : TreeNode → String
  | .mk _ n _ _ _ _ _ _ _ _ _ _ => n

def TreeNode.messiahLine : TreeNode → Option Bool
  | .mk _ _ m _ _ _ _ _ _ _ _ _ => m

def TreeNode.levitical : TreeNode → Option Bool
  | .mk _ _ _ l _ _ _ _ _ _ _ _ => l

def TreeNode.judge : TreeNode → Option Bool
  | .mk _ _ _ _ j _ _ _ _ _ _ _ => j

def TreeNode.initiallyVisible : TreeNode → Option Bool
  | .mk _ _ _ _ _ iv _ _ _ _ _ _ => iv

def TreeNode.hadCollapsedChildren : TreeNode → Option Bool
  | .mk _ _ _ _ _ _ hc _ _ _ _ _ => hc

def TreeNode.tooltipRaw : TreeNode → Option String
  | .mk _ _ _ _ _ _ _ tr _ _ _ _ => tr

def TreeNode.tooltip : TreeNode → Option String
  | .mk _ _ _ _ _ _ _ _ tt _ _ _ => tt

def TreeNode.spouse : TreeNode → Option String
  | .mk _ _ _ _ _ _ _ _ _ sp _ _ => sp

def TreeNode.refs : TreeNode → Option (List String)
  | .mk _ _ _ _ _ _ _ _ _ _ r _ => r

def TreeNode.children : TreeNode → Option (List TreeNode)
  | .mk _ _ _ _ _ _ _ _ _ _ _ c => c

/-- The flag store of `build_tree`: `if parse_bool(row.get(key)):
node[key] = True` — the key is written, with value `True`, exactly when
the field parses to `True` (Python `if bool_value:` is false for both
`None` and `False`). -/
def flagVal (row : Row) (key : String) : Option Bool :=
  if parse_bool (rowGet row key) = some true then some true else none

/-- The node dict assembled by one activation of `build_tree`, given the
person's row and the already-built child list (the recursive part is in
`build_treeF`). Mirrors lines 62–99 of the script field by field. -/
def mkNode (node_id : String) (row : Row) (built : List TreeNode) : TreeNode :=
  let tooltip_raw := (pyOr (rowGet row "tooltipRaw") "").trim
  let spouse := (pyOr (rowGet row "spouse") "").trim
  let refs := (pyOr (rowGet row "refs") "").trim
  TreeNode.mk
    node_id
    (pyOr (rowGet row "name") node_id)
    (flagVal row "messiahLine")
    (flagVal row "levitical")
    (flagVal row "judge")
    (parse_bool (rowGet row "initiallyVisible"))
    (parse_bool (rowGet row "hadCollapsedChildren"))
    (if tooltip_raw = "" then none else some tooltip_raw)
    (if tooltip_raw = "" then none else some (normalizeWs tooltip_raw))
    (if spouse = "" then none else some spouse)
    (if refs = "" then none else
      some (((refs.splitOn ";").map String.trim).filter (fun r => r ≠ "")))
    (if built.isEmpty then none else some built)

/-- Sequence a list of optional results, failing on the first `none`:
the effect of the list comprehension `[build_tree(child_id, ...) for
child_id in child_ids]` when each element may fail to complete. -/
def seqOpt {α : Type} : List (Option α) → Option (List α)
  | [] => some []
  | none :: _ => none
  | some a :: rest =>
    match seqOpt rest with
    | none => none
    | some as => some (a :: as)

/-- `build_tree` from `generate_bible_tree.py`, with an explicit fuel
bound on the recursion depth. `build_treeF 0 _ _ _ = none` models a
recursion that does not complete (the Python original recurses without
any cycle guard, so on cyclic input it exhausts the interpreter stack);
`none` also results from a failed row lookup (Python `KeyError`). -/
def build_treeF : Nat → NodesMap → (String → List String) → String → Option TreeNode
  | 0, _, _, _ => none
  | fuel + 1, nodes, cmap, node_id =>
    match lookupRow nodes node_id with
    | none => none
    | some row =>
      match seqOpt ((cmap node_id).map (fun child_id => build_treeF fuel nodes cmap child_id)) with
      | none => none
      | some built => some (mkNode node_id row built)

/-- `build_master_tree`: raise `RuntimeError` when id "420" (Adam) is not
in the node dict, else compile from "420". The inner `Option` is the fuel
bound of `build_treeF`. -/
def build_master_treeF (fuel : Nat) (nodes : NodesMap) (cmap : String → List String) :
    Except String (Option TreeNode) :=
  if lookupRow nodes "420" = none then
    Except.error "Expected node id 420 (Adam) to exist in nodes.csv"
  else
    Except.ok (build_treeF fuel nodes cmap "420")

/-- A cluster index entry `{slug?, title?, roots?}`; `roots` models
`cluster_entry.get("roots", [])` (an absent key is the empty list). -/
structure ClusterEntry where
  slug : Option String
  title : Option String
  roots : List String

/-- The id of the synthetic cluster root:
Python `f-string` of `"cluster:"` with `cluster_entry.get("slug", "cluster")`. -/
def clusterId (entry : ClusterEntry) : String :=
  "cluster:" ++ entry.slug.getD "cluster"

/-- `title = cluster_entry.get("title") or cluster_entry.get("slug") or
"Cluster"` (Python `or` treats `None` and `""` as falsy). -/
def clusterTitle (entry : ClusterEntry) : String :=
  pyOr entry.title (pyOr entry.slug "Cluster")

/-- The root-collection loop of `build_cluster_tree`: for each declared
root id in order, skip it when absent from the node dict, else compile it
and append the subtree. -/
def buildClusterChildren (fuel : Nat) (nodes : NodesMap) (cmap : String → List String) :
    List String → Option (List TreeNode)
  | [] => some []
  | root_id :: rest =>
    if (lookupRow nodes root_id).isSome then
      match build_treeF fuel nodes cmap root_id with
      | none => none
      | some t =>
        match buildClusterChildren fuel nodes cmap rest with
        | none => none
        | some ts => some (t :: ts)
    else
      buildClusterChildren fuel nodes cmap rest

/-- `build_cluster_tree`: wrap the compiled subtrees of the present roots
under a synthetic cluster-root dict. Note the script writes the
`children` key unconditionally (`"children": root_children`), even when
`root_children` is empty. -/
def build_cluster_treeF (fuel : Nat) (entry : ClusterEntry) (nodes : NodesMap)
    (cmap : String → List String) : Option TreeNode :=
  match buildClusterChildren fuel nodes cmap entry.roots with
  | none => none
  | some root_children =>
    some (TreeNode.mk (clusterId entry) (clusterTitle entry)
      none none none none none none none none none (some root_children))

/-- The children list of a compiled node, reading an absent `children`
key as the empty list. -/
def childrenOf (t : TreeNode) : List TreeNode :=
  (TreeNode.children t).getD []

/-- Claim C3: `parse_bool` returns `true` exactly on trimmed-lowercased
"true"/"1"/"yes", `false` exactly on "false"/"0"/"no", and
absent/unknown (`none`) on every other input, including `None` (missing
field) and the empty string. -/
theorem parse_bool_three_way (value : Option String) :
    (parse_bool value = some true ↔
      ∃ s, value = some s ∧
        ((s.trim).toLower = "true" ∨ (s.trim).toLower = "1" ∨ (s.trim).toLower = "yes")) ∧
    (parse_bool value = some false ↔
      ∃ s, value = some s ∧
        ((s.trim).toLower = "false" ∨ (s.trim).toLower = "0" ∨ (s.trim).toLower = "no")) ∧
    (parse_bool value = none ↔
      (value = none ∨
        ∃ s, value = some s ∧
          ¬((s.trim).toLower = "true" ∨ (s.trim).toLower = "1" ∨ (s.trim).toLower = "yes") ∧
          ¬((s.trim).toLower = "false" ∨ (s.trim).toLower = "0" ∨ (s.trim).toLower = "no"))) := by
  cases value with
  | none => simp [parse_bool]
  | some s =>
    simp only [parse_bool, Option.some.injEq]
    by_cases ht : (s.trim).toLower = "true" ∨ (s.trim).toLower = "1" ∨ (s.trim).toLower = "yes"
    · have hf : ¬((s.trim).toLower = "false" ∨ (s.trim).toLower = "0" ∨ (s.trim).toLower = "no") := by
        rcases ht with h | h | h <;> rw [h] <;> simp
      simp only [ht, hf]
      simp [ht, hf]
      tauto
    · by_cases hf : (s.trim).toLower = "false" ∨ (s.trim).toLower = "0" ∨ (s.trim).toLower = "no"
      · simp [ht, hf]
        tauto
      · simp [ht, hf]
        tauto


/-- Looking up a node id in the numerically filtered node dict: present
with the original row when the id is numeric, absent otherwise. -/
theorem lookupRow_filterNumeric (nodes_raw : NodesMap) (node_id : String) :
    lookupRow (filterNumericNodes nodes_raw) node_id
      = if pyIsDigit node_id then lookupRow nodes_raw node_id else none := by
  induction nodes_raw with
  | nil =>
    simp [lookupRow, filterNumericNodes]
  | cons p rest ih =>
    rcases eq_or_ne p.1 node_id with hk | hk
    · subst hk
      by_cases hd : pyIsDigit p.1
      · simp [lookupRow, filterNumericNodes, List.filter_cons, hd, List.find?]
      · have h1 : filterNumericNodes (p :: rest) = filterNumericNodes rest := by
          simp [filterNumericNodes, List.filter_cons, hd]
        have h2 : lookupRow (p :: rest) p.1 = some p.2 := by
          simp [lookupRow, List.find?]
        rw [h1, ih, h2]
        simp [hd]
    · have h2 : lookupRow (p :: rest) node_id = lookupRow rest node_id := by
        simp [lookupRow, List.find?, hk]
      by_cases hd : pyIsDigit p.1
      · have h1 : lookupRow (filterNumericNodes (p :: rest)) node_id
            = lookupRow (filterNumericNodes rest) node_id := by
          simp [lookupRow, filterNumericNodes, List.filter_cons, hd, List.find?, hk]
        rw [h1, ih, h2]
      · have h1 : filterNumericNodes (p :: rest) = filterNumericNodes rest := by
          simp [filterNumericNodes, List.filter_cons, hd]
        rw [h1, ih, h2]

/-- The keys of the filtered node dict are exactly the numeric ids, in
order. -/
theorem filterNumeric_keys (nodes_raw : NodesMap) :
    (filterNumericNodes nodes_raw).map (fun p => p.1) = numericIds nodes_raw := by
  induction nodes_raw with
  | nil => simp [filterNumericNodes, numericIds]
  | cons p rest ih =>
    by_cases hd : pyIsDigit p.1 <;>
      simp only [filterNumericNodes, numericIds, List.map_cons, List.filter_cons, hd] at * <;>
      simp [hd, ih]

/-- Unfolding the edge-scanning fold of `parse_edges` from an arbitrary
accumulator: the final children list of `src` is the accumulator's list
followed by the targets of the surviving edges with source `src`, in edge
order. -/
theorem parse_edges_foldl (valid : List String) (edges : List (String × String))
    (m : String → List String) (src : String) :
    (edges.foldl
      (fun children row =>
        if valid.contains row.1 && valid.contains row.2 then
          fun node_id => if node_id = row.1 then children node_id ++ [row.2] else children node_id
        else
          children) m) src
      = m src ++ (edges.filter (fun e =>
          valid.contains e.1 && valid.contains e.2 && decide (e.1 = src))).map (fun e => e.2) := by
  induction edges generalizing m with
  | nil => simp
  | cons e rest ih =>
    simp only [List.foldl_cons, List.filter_cons]
    by_cases hv : (valid.contains e.1 && valid.contains e.2) = true
    · rw [if_pos hv, ih]
      rcases Bool.and_eq_true _ _ |>.mp hv with ⟨hv1, hv2⟩
      have m1 : e.1 ∈ valid := by simpa using hv1
      have m2 : e.2 ∈ valid := by simpa using hv2
      rcases eq_or_ne e.1 src with hs | hs
      · subst hs
        simp [m1, m2]
      · have hs2 : ¬(src = e.1) := fun h => hs h.symm
        have hc : (valid.contains e.1 && valid.contains e.2 && decide (e.1 = src)) = false := by
          simp [hs]
        rw [hc]
        simp [hs2]
    · rw [if_neg hv, ih]
      have hc : (valid.contains e.1 && valid.contains e.2 && decide (e.1 = src)) = false := by
        cases h1 : valid.contains e.1 with
        | false => simp only [h1, Bool.false_and]
        | true =>
          cases h2 : valid.contains e.2 with
          | false => simp only [h2, Bool.and_false, Bool.false_and]
          | true => exact absurd (by rw [h1, h2]; rfl) hv
      rw [hc]
      simp

/-- `parse_edges` characterised: the children recorded for `src` are the
targets of the edges whose endpoints are both valid and whose source is
`src`, in the original edge-table order. -/
theorem parse_edges_eq_filter (valid : List String) (edges : List (String × String))
    (src : String) :
    parse_edges valid edges src
      = (edges.filter (fun e =>
          valid.contains e.1 && valid.contains e.2 && decide (e.1 = src))).map (fun e => e.2) := by
  have h := parse_edges_foldl valid edges (fun _ => []) src
  simpa [parse_edges] using h

/-- Claim C4: the loader keeps exactly the rows with a numeric id
(non-numeric ids are silently dropped, numeric ids keep their original
row), and the adjacency index records exactly the edges both of whose
endpoints survive the filter; an edge with a filtered-out endpoint on
either end contributes nothing. -/
theorem loader_numeric_filter (nodes_raw : NodesMap) (edges : List (String × String)) :
    ((filterNumericNodes nodes_raw).map (fun p => p.1) = numericIds nodes_raw) ∧
    (∀ node_id, lookupRow (filterNumericNodes nodes_raw) node_id
        = if pyIsDigit node_id then lookupRow nodes_raw node_id else none) ∧
    (∀ src, parse_edges (numericIds nodes_raw) edges src
        = (edges.filter (fun e =>
            (numericIds nodes_raw).contains e.1 && (numericIds nodes_raw).contains e.2
              && decide (e.1 = src))).map (fun e => e.2)) :=
  ⟨filterNumeric_keys nodes_raw,
   fun node_id => lookupRow_filterNumeric nodes_raw node_id,
   fun src => parse_edges_eq_filter (numericIds nodes_raw) edges src⟩

/-- Unfolding lemma: sequencing a `some`-headed list maps consing over the
sequenced tail. -/
theorem seqOpt_cons_some {α : Type} (a : α) (l : List (Option α)) :
    seqOpt (some a :: l) = (seqOpt l).map (fun as => a :: as) := by
  cases h : seqOpt l <;> simp [seqOpt, h]

/-- A successfully sequenced list has the same length as its source. -/
theorem seqOpt_length {α : Type} :
    ∀ (l : List (Option α)) (l2 : List α), seqOpt l = some l2 → l2.length = l.length := by
  intro l
  induction l with
  | nil =>
    intro l2 h
    simp only [seqOpt, Option.some.injEq] at h
    simp [h.symm]
  | cons o rest ih =>
    intro l2 h
    cases o with
    | none => simp [seqOpt] at h
    | some a =>
      rw [seqOpt_cons_some] at h
      cases hrec : seqOpt rest with
      | none => rw [hrec] at h; simp at h
      | some as =>
        rw [hrec] at h
        simp only [Option.map_some', Option.some.injEq] at h
        subst h
        simp [ih as hrec]

/-- Element-wise reading of a successful `seqOpt` over a mapped list: the
value at index `i` of the result is the successful image of the source
element at index `i`. -/
theorem seqOpt_map_get {α β : Type} (f : α → Option β) :
    ∀ (l : List α) (l2 : List β), seqOpt (l.map f) = some l2 →
      ∀ (i : Nat) (a : α), l.get? i = some a →
        ∃ b, f a = some b ∧ l2.get? i = some b := by
  intro l
  induction l with
  | nil =>
    intro l2 h i a ha
    simp at ha
  | cons x rest ih =>
    intro l2 h i a ha
    rw [List.map_cons] at h
    cases hx : f x with
    | none => rw [hx] at h; simp [seqOpt] at h
    | some b =>
      rw [hx, seqOpt_cons_some] at h
      cases hrec : seqOpt (rest.map f) with
      | none => rw [hrec] at h; simp at h
      | some bs =>
        rw [hrec] at h
        simp only [Option.map_some', Option.some.injEq] at h
        subst h
        cases i with
        | zero =>
          simp only [List.get?] at ha
          cases ha
          exact ⟨b, hx, rfl⟩
        | succ j =>
          simp only [List.get?] at ha ⊢
          exact ih bs hrec j a ha

/-- Every element of a successful `seqOpt` over a mapped list is the
successful image of some source element. -/
theorem seqOpt_map_mem {α β : Type} (f : α → Option β) :
    ∀ (l : List α) (l2 : List β), seqOpt (l.map f) = some l2 →
      ∀ b ∈ l2, ∃ a ∈ l, f a = some b := by
  intro l
  induction l with
  | nil =>
    intro l2 h b hb
    simp only [List.map_nil, seqOpt, Option.some.injEq] at h
    subst h
    simp at hb
  | cons x rest ih =>
    intro l2 h b hb
    rw [List.map_cons] at h
    cases hx : f x with
    | none => rw [hx] at h; simp [seqOpt] at h
    | some b0 =>
      rw [hx, seqOpt_cons_some] at h
      cases hrec : seqOpt (rest.map f) with
      | none => rw [hrec] at h; simp at h
      | some bs =>
        rw [hrec] at h
        simp only [Option.map_some', Option.some.injEq] at h
        subst h
        rcases List.mem_cons.mp hb with hb0 | hbs
        · exact ⟨x, List.mem_cons_self x rest, hb0 ▸ hx⟩
        · rcases ih bs hrec b hbs with ⟨a, ha, hfa⟩
          exact ⟨a, List.mem_cons_of_mem x ha, hfa⟩

/-- Projecting a successful `seqOpt` back onto the source list: when a
projection `g` inverts `f` on successful values, mapping `g` over the
result recovers the source list. -/
theorem seqOpt_map_proj {α β : Type} (f : α → Option β) (g : β → α)
    (hinv : ∀ a b, f a = some b → g b = a) :
    ∀ (l : List α) (l2 : List β), seqOpt (l.map f) = some l2 → l2.map g = l := by
  intro l
  induction l with
  | nil =>
    intro l2 h
    simp only [List.map_nil, seqOpt, Option.some.injEq] at h
    subst h
    rfl
  | cons x rest ih =>
    intro l2 h
    rw [List.map_cons] at h
    cases hx : f x with
    | none => rw [hx] at h; simp [seqOpt] at h
    | some b =>
      rw [hx, seqOpt_cons_some] at h
      cases hrec : seqOpt (rest.map f) with
      | none => rw [hrec] at h; simp at h
      | some bs =>
        rw [hrec] at h
        simp only [Option.map_some', Option.some.injEq] at h
        subst h
        simp [hinv x b hx, ih bs hrec]

/-- `seqOpt` succeeds with the same value under any pointwise-larger
partial function. -/
theorem seqOpt_map_mono {α β : Type} (f g : α → Option β)
    (hfg : ∀ a b, f a = some b → g a = some b) :
    ∀ (l : List α) (l2 : List β), seqOpt (l.map f) = some l2 → seqOpt (l.map g) = some l2 := by
  intro l
  induction l with
  | nil =>
    intro l2 h
    simpa using h
  | cons x rest ih =>
    intro l2 h
    rw [List.map_cons] at h
    rw [List.map_cons]
    cases hx : f x with
    | none => rw [hx] at h; simp [seqOpt] at h
    | some b =>
      rw [hx, seqOpt_cons_some] at h
      cases hrec : seqOpt (rest.map f) with
      | none => rw [hrec] at h; simp at h
      | some bs =>
        rw [hrec] at h
        simp only [Option.map_some', Option.some.injEq] at h
        rw [hfg x b hx, seqOpt_cons_some, ih bs hrec]
        simp [h]

/-- One activation of `build_treeF` as a bind/map pipeline: look up the
row, recursively compile the children list at one less fuel, assemble the
node dict. -/
theorem build_treeF_succ (fuel : Nat) (nodes : NodesMap) (cmap : String → List String)
    (node_id : String) :
    build_treeF (fuel + 1) nodes cmap node_id
      = (lookupRow nodes node_id).bind (fun row =>
          (seqOpt ((cmap node_id).map (fun c => build_treeF fuel nodes cmap c))).map
            (fun built => mkNode node_id row built)) := by
  cases hrow : lookupRow nodes node_id with
  | none => simp [build_treeF, hrow]
  | some row =>
    cases hseq : seqOpt ((cmap node_id).map (fun c => build_treeF fuel nodes cmap c)) with
    | none => simp [build_treeF, hrow, hseq]
    | some built => simp [build_treeF, hrow, hseq]

/-- Inversion of a successful `build_treeF`: fuel is positive, the row
lookup succeeded, every child compiled at one less fuel, and the result
is the assembled node dict. -/
theorem build_treeF_some_inv {fuel : Nat} {nodes : NodesMap} {cmap : String → List String}
    {node_id : String} {t : TreeNode}
    (h : build_treeF fuel nodes cmap node_id = some t) :
    ∃ f2 row built, fuel = f2 + 1 ∧ lookupRow nodes node_id = some row ∧
      seqOpt ((cmap node_id).map (fun c => build_treeF f2 nodes cmap c)) = some built ∧
      t = mkNode node_id row built := by
  cases fuel with
  | zero => simp [build_treeF] at h
  | succ f2 =>
    rw [build_treeF_succ] at h
    cases hrow : lookupRow nodes node_id with
    | none => rw [hrow] at h; simp at h
    | some row =>
      rw [hrow] at h
      cases hseq : seqOpt ((cmap node_id).map (fun c => build_treeF f2 nodes cmap c)) with
      | none => rw [hseq] at h; simp at h
      | some built =>
        rw [hseq] at h
        simp only [Option.some_bind, Option.map_some', Option.some.injEq] at h
        exact ⟨f2, row, built, rfl, rfl, hseq, h.symm⟩

/-- The id of a compiled node is the id it was compiled from. -/
theorem build_treeF_id {fuel : Nat} {nodes : NodesMap} {cmap : String → List String}
    {node_id : String} {t : TreeNode}
    (h : build_treeF fuel nodes cmap node_id = some t) :
    TreeNode.id t = node_id := by
  rcases build_treeF_some_inv h with ⟨f2, row, built, hf, hrow, hseq, ht⟩
  subst ht
  simp [mkNode, TreeNode.id]

/-- Fuel monotonicity: a compilation that completes at some recursion
depth completes, with the same result, at every larger depth. -/
theorem build_treeF_mono :
    ∀ (f1 : Nat) (nodes : NodesMap) (cmap : String → List String) (node_id : String)
      (t : TreeNode) (f2 : Nat), f1 ≤ f2 →
      build_treeF f1 nodes cmap node_id = some t →
      build_treeF f2 nodes cmap node_id = some t := by
  intro f1
  induction f1 with
  | zero =>
    intro nodes cmap node_id t f2 hle h
    simp [build_treeF] at h
  | succ g ih =>
    intro nodes cmap node_id t f2 hle h
    cases f2 with
    | zero => omega
    | succ g2 =>
      have hg : g ≤ g2 := Nat.succ_le_succ_iff.mp hle
      rcases build_treeF_some_inv h with ⟨f0, row, built, hf, hrow, hseq, ht⟩
      rw [show f0 = g by omega] at hseq
      subst ht
      have hseq2 : seqOpt ((cmap node_id).map (fun c => build_treeF g2 nodes cmap c))
          = some built :=
        seqOpt_map_mono (fun c => build_treeF g nodes cmap c)
          (fun c => build_treeF g2 nodes cmap c)
          (fun a b hb => ih nodes cmap a b g2 hg hb) (cmap node_id) built hseq
      rw [build_treeF_succ, hrow]
      simp [hseq2]

/-- The `children` key of an assembled node dict, read back as a list:
the built child list itself (the empty list is stored as an absent key). -/
theorem childrenOf_mkNode (node_id : String) (row : Row) (built : List TreeNode) :
    childrenOf (mkNode node_id row built) = built := by
  cases built with
  | nil => simp [childrenOf, mkNode, TreeNode.children]
  | cons c cs => simp [childrenOf, mkNode, TreeNode.children]

/-- A stored flag is either `true` or absent, and it is `true` exactly
when the raw field parses to true. -/
theorem flagVal_cases (row : Row) (key : String) :
    (flagVal row key = some true ∨ flagVal row key = none) ∧
    (flagVal row key = some true ↔ parse_bool (rowGet row key) = some true) := by
  by_cases hp : parse_bool (rowGet row key) = some true <;> simp [flagVal, hp]

/-- Claim C2: a compiled node carries a `{messiahLine, levitical, judge}`
key only when that raw field parses to true (the key is never present
with value false), and carries `initiallyVisible`/`hadCollapsedChildren`
exactly when the raw field parses to an unambiguous boolean, with that
parsed value, omitting them when the field is absent or unparseable. -/
theorem build_tree_flag_semantics
    (fuel : Nat) (nodes : NodesMap) (cmap : String → List String)
    (node_id : String) (row : Row) (node : TreeNode)
    (hrow : lookupRow nodes node_id = some row)
    (hb : build_treeF fuel nodes cmap node_id = some node) :
    ((node.messiahLine = some true ∨ node.messiahLine = none) ∧
      (node.messiahLine = some true ↔ parse_bool (rowGet row "messiahLine") = some true)) ∧
    ((node.levitical = some true ∨ node.levitical = none) ∧
      (node.levitical = some true ↔ parse_bool (rowGet row "levitical") = some true)) ∧
    ((node.judge = some true ∨ node.judge = none) ∧
      (node.judge = some true ↔ parse_bool (rowGet row "judge") = some true)) ∧
    (node.initiallyVisible = parse_bool (rowGet row "initiallyVisible")) ∧
    (node.hadCollapsedChildren = parse_bool (rowGet row "hadCollapsedChildren")) := by
  rcases build_treeF_some_inv hb with ⟨f2, row2, built, hf, hrow2, hseq, ht⟩
  rw [hrow] at hrow2
  injection hrow2 with hrr
  subst hrr
  subst ht
  refine ⟨?_, ?_, ?_, ?_, ?_⟩
  · simpa [mkNode, TreeNode.messiahLine] using flagVal_cases row "messiahLine"
  · simpa [mkNode, TreeNode.levitical] using flagVal_cases row "levitical"
  · simpa [mkNode, TreeNode.judge] using flagVal_cases row "judge"
  · simp [mkNode, TreeNode.initiallyVisible]
  · simp [mkNode, TreeNode.hadCollapsedChildren]

/-- An always-absent node dict, used only as the default of `Option.getD`
in concrete evaluations. -/
def emptyNode : TreeNode :=
  TreeNode.mk "" "" none none none none none none none none none none

/-- Concrete fixture: one person row with `judge="true"` and
`initiallyVisible="false"`. -/
def wRow2 : Row := [("id", "1"), ("name", "A"), ("judge", "true"), ("initiallyVisible", "false")]

/-- Concrete fixture: the node table holding only `wRow2`. -/
def wNodes2 : NodesMap := [("1", wRow2)]

/-- Concrete fixture: the empty adjacency index. -/
def wCmap0 : String → List String := fun _ => []

/-- Concrete fixture: the node compiled from `wRow2`. -/
def wNode2 : TreeNode := (build_treeF 1 wNodes2 wCmap0 "1").getD emptyNode

/-- Witness for claim C2 at a concrete row with `judge="true"` and
`initiallyVisible="false"`. -/
theorem build_tree_flag_semantics_witness :
    ((wNode2.messiahLine = some true ∨ wNode2.messiahLine = none) ∧
      (wNode2.messiahLine = some true ↔ parse_bool (rowGet wRow2 "messiahLine") = some true)) ∧
    ((wNode2.levitical = some true ∨ wNode2.levitical = none) ∧
      (wNode2.levitical = some true ↔ parse_bool (rowGet wRow2 "levitical") = some true)) ∧
    ((wNode2.judge = some true ∨ wNode2.judge = none) ∧
      (wNode2.judge = some true ↔ parse_bool (rowGet wRow2 "judge") = some true)) ∧
    (wNode2.initiallyVisible = parse_bool (rowGet wRow2 "initiallyVisible")) ∧
    (wNode2.hadCollapsedChildren = parse_bool (rowGet wRow2 "hadCollapsedChildren")) :=
  build_tree_flag_semantics 1 wNodes2 wCmap0 "1" wRow2 wNode2 rfl rfl

/-- Claim C10: the compiled node's name falls back to the person's id
when the row's name field is missing or empty, and is the row's name
otherwise. -/
theorem name_falls_back_to_id
    (fuel : Nat) (nodes : NodesMap) (cmap : String → List String)
    (node_id : String) (row : Row) (node : TreeNode)
    (hrow : lookupRow nodes node_id = some row)
    (hb : build_treeF fuel nodes cmap node_id = some node) :
    ((rowGet row "name" = none ∨ rowGet row "name" = some "") → node.name = node_id) ∧
    (∀ s, rowGet row "name" = some s → s ≠ "" → node.name = s) := by
  rcases build_treeF_some_inv hb with ⟨f2, row2, built, hf, hrow2, hseq, ht⟩
  rw [hrow] at hrow2
  have hrr2 : row2 = row := by injection hrow2.symm
  subst hrr2
  subst ht
  constructor
  · rintro (hn | hn) <;> simp [mkNode, TreeNode.name, pyOr, hn]
  · intro s hs hne
    simp [mkNode, TreeNode.name, pyOr, hs, hne]

/-- Concrete fixture: a person row with an empty name field. -/
def wRow10 : Row := [("id", "7"), ("name", "")]

/-- Concrete fixture: the node table holding only `wRow10`. -/
def wNodes10 : NodesMap := [("7", wRow10)]

/-- Concrete fixture: the node compiled from `wRow10`. -/
def wNode10 : TreeNode := (build_treeF 1 wNodes10 wCmap0 "7").getD emptyNode

/-- Witness for claim C10 at a concrete row whose name field is empty:
the compiled name is the id "7". -/
theorem name_falls_back_to_id_witness :
    ((rowGet wRow10 "name" = none ∨ rowGet wRow10 "name" = some "") → wNode10.name = "7") ∧
    (∀ s, rowGet wRow10 "name" = some s → s ≠ "" → wNode10.name = s) :=
  name_falls_back_to_id 1 wNodes10 wCmap0 "7" wRow10 wNode10 rfl rfl

/-- Claim C7: for a node compiled through the full loader pipeline
(numeric filter + `parse_edges`), the children appear in exactly the
order in which the surviving edges with that source id appear in the
original edge table — sibling order is preserved, never re-sorted. -/
theorem children_preserve_edge_order
    (nodes_raw : NodesMap) (edges : List (String × String)) (fuel : Nat)
    (src : String) (node : TreeNode)
    (hb : build_treeF fuel (filterNumericNodes nodes_raw)
            (parse_edges (numericIds nodes_raw) edges) src = some node) :
    (childrenOf node).map TreeNode.id
      = (edges.filter (fun e =>
          (numericIds nodes_raw).contains e.1 && (numericIds nodes_raw).contains e.2
            && decide (e.1 = src))).map (fun e => e.2) := by
  rcases build_treeF_some_inv hb with ⟨f2, row, built, hf, hrow, hseq, ht⟩
  subst ht
  rw [childrenOf_mkNode]
  have hids : built.map TreeNode.id = parse_edges (numericIds nodes_raw) edges src :=
    seqOpt_map_proj
      (fun c => build_treeF f2 (filterNumericNodes nodes_raw)
        (parse_edges (numericIds nodes_raw) edges) c)
      TreeNode.id
      (fun a b hab => build_treeF_id hab)
      (parse_edges (numericIds nodes_raw) edges src) built hseq
  rw [hids, parse_edges_eq_filter]

/-- Concrete fixture: raw node table with two numeric rows and one
legend row ("x"). -/
def wNodes7 : NodesMap := [("1", [("id", "1")]), ("2", [("id", "2")]), ("x", [("id", "x")])]

/-- Concrete fixture: edge table with one surviving edge (1→2) and one
dropped edge (1→x). -/
def wEdges7 : List (String × String) := [("1", "2"), ("1", "x")]

/-- Concrete fixture: the node compiled from source "1" through the full
pipeline over `wNodes7` and `wEdges7`. -/
def wNode7 : TreeNode :=
  (build_treeF 2 (filterNumericNodes wNodes7)
    (parse_edges (numericIds wNodes7) wEdges7) "1").getD emptyNode

/-- Witness for claim C7 on the concrete pipeline fixture. -/
theorem children_preserve_edge_order_witness :
    (childrenOf wNode7).map TreeNode.id
      = (wEdges7.filter (fun e =>
          (numericIds wNodes7).contains e.1 && (numericIds wNodes7).contains e.2
            && decide (e.1 = "1"))).map (fun e => e.2) :=
  children_preserve_edge_order wNodes7 wEdges7 2 "1" wNode7 (by rfl)

/-- Claim C5: when the master-root id "420" is absent from the filtered
node table, the run raises a `RuntimeError` whose message names the
missing id, and no tree is produced; when it is present, the root lookup
raises nothing and the master tree is the compilation from "420". -/
theorem master_root_check (fuel : Nat) (nodes : NodesMap) (cmap : String → List String) :
    (lookupRow nodes "420" = none →
      build_master_treeF fuel nodes cmap
        = Except.error "Expected node id 420 (Adam) to exist in nodes.csv") ∧
    (∀ row, lookupRow nodes "420" = some row →
      build_master_treeF fuel nodes cmap = Except.ok (build_treeF fuel nodes cmap "420")) := by
  constructor
  · intro habs
    simp [build_master_treeF, habs]
  · intro row hpres
    simp [build_master_treeF, hpres]

/-- Witness for claim C5: the empty node table raises the error naming
id 420; a table containing id "420" yields the compiled tree. -/
theorem master_root_check_witness :
    (build_master_treeF 1 [] wCmap0
        = Except.error "Expected node id 420 (Adam) to exist in nodes.csv") ∧
    (build_master_treeF 1 [("420", [("id", "420")])] wCmap0
        = Except.ok (build_treeF 1 [("420", [("id", "420")])] wCmap0 "420")) :=
  ⟨(master_root_check 1 [] wCmap0).1 rfl,
   (master_root_check 1 [("420", [("id", "420")])] wCmap0).2 [("id", "420")] rfl⟩

/-- The cluster root-collection loop is the sequenced compilation of the
declared roots that are present in the node table, in declared order. -/
theorem buildClusterChildren_eq (fuel : Nat) (nodes : NodesMap) (cmap : String → List String) :
    ∀ roots : List String,
      buildClusterChildren fuel nodes cmap roots
        = seqOpt ((roots.filter (fun r => (lookupRow nodes r).isSome)).map
            (fun r => build_treeF fuel nodes cmap r)) := by
  intro roots
  induction roots with
  | nil => rfl
  | cons r rest ih =>
    cases hp : (lookupRow nodes r).isSome with
    | false =>
      have hl : buildClusterChildren fuel nodes cmap (r :: rest)
          = buildClusterChildren fuel nodes cmap rest := by
        simp [buildClusterChildren, hp]
      rw [hl, ih]
      simp [List.filter_cons, hp]
    | true =>
      have hstep : (r :: rest).filter (fun r => (lookupRow nodes r).isSome)
          = r :: rest.filter (fun r => (lookupRow nodes r).isSome) := by
        simp [List.filter_cons, hp]
      rw [hstep, List.map_cons]
      cases hb : build_treeF fuel nodes cmap r with
      | none =>
        have hl : buildClusterChildren fuel nodes cmap (r :: rest) = none := by
          simp [buildClusterChildren, hp, hb]
        rw [hl]
        simp [seqOpt]
      | some t =>
        have hl : buildClusterChildren fuel nodes cmap (r :: rest)
            = match buildClusterChildren fuel nodes cmap rest with
              | none => none
              | some ts => some (t :: ts) := by
          simp [buildClusterChildren, hp, hb]
        rw [hl, ih, seqOpt_cons_some]
        cases hrec : seqOpt ((rest.filter (fun r => (lookupRow nodes r).isSome)).map
            (fun r => build_treeF fuel nodes cmap r)) with
        | none => simp
        | some ts => simp

/-- Splitting a list by a boolean predicate preserves total length. -/
theorem length_filter_partition {α : Type} (p : α → Bool) (l : List α) :
    (l.filter p).length + (l.filter (fun a => !(p a))).length = l.length := by
  induction l with
  | nil => rfl
  | cons a rest ih =>
    cases hp : p a <;> simp [List.filter_cons, hp, ← ih] <;> omega

/-- Claim C6: assembling a cluster never fails because a declared root id
is absent: absent roots are skipped, the synthetic cluster root's
children are exactly the compiled subtrees of the present roots in
declared order, and the child count equals the declared root count minus
the number of absent roots. -/
theorem cluster_skips_absent_roots
    (fuel : Nat) (entry : ClusterEntry) (nodes : NodesMap) (cmap : String → List String)
    (cs : List TreeNode)
    (h : buildClusterChildren fuel nodes cmap entry.roots = some cs) :
    (build_cluster_treeF fuel entry nodes cmap
        = some (TreeNode.mk (clusterId entry) (clusterTitle entry)
            none none none none none none none none none (some cs))) ∧
    (cs.length + (entry.roots.filter (fun r => !(lookupRow nodes r).isSome)).length
        = entry.roots.length) ∧
    (∀ i r, (entry.roots.filter (fun r => (lookupRow nodes r).isSome)).get? i = some r →
      ∃ t, build_treeF fuel nodes cmap r = some t ∧ cs.get? i = some t) := by
  refine ⟨?_, ?_, ?_⟩
  · simp [build_cluster_treeF, h]
  · rw [buildClusterChildren_eq] at h
    have hlen := seqOpt_length _ cs h
    rw [List.length_map] at hlen
    rw [hlen]
    exact length_filter_partition (fun r => (lookupRow nodes r).isSome) entry.roots
  · intro i r hi
    rw [buildClusterChildren_eq] at h
    exact seqOpt_map_get (fun r => build_treeF fuel nodes cmap r) _ cs h i r hi

/-- Concrete fixture: a cluster entry declaring a present root "1" and an
absent root "9". -/
def wEntry6 : ClusterEntry := ClusterEntry.mk (some "x") none ["1", "9"]

/-- Concrete fixture: the successfully collected cluster children over
`wNodes2` (only root "1" is present). -/
def wCs6 : List TreeNode := (buildClusterChildren 1 wNodes2 wCmap0 wEntry6.roots).getD []

/-- Witness for claim C6: with declared roots ["1", "9"] and only "1"
present, assembly does not fail and yields one fewer top-level child than
the declared root count. -/
theorem cluster_skips_absent_roots_witness :
    (build_cluster_treeF 1 wEntry6 wNodes2 wCmap0
        = some (TreeNode.mk (clusterId wEntry6) (clusterTitle wEntry6)
            none none none none none none none none none (some wCs6))) ∧
    (wCs6.length + (wEntry6.roots.filter (fun r => !(lookupRow wNodes2 r).isSome)).length
        = wEntry6.roots.length) ∧
    (∀ i r, (wEntry6.roots.filter (fun r => (lookupRow wNodes2 r).isSome)).get? i = some r →
      ∃ t, build_treeF 1 wNodes2 wCmap0 r = some t ∧ wCs6.get? i = some t) :=
  cluster_skips_absent_roots 1 wEntry6 wNodes2 wCmap0 wCs6 (by rfl)

/-- Claim C8: when two distinct parents both list the same child id, the
compiler renders a fresh subtree for that child under each parent, and
the two rendered subtrees are structurally equal: the child's subtree is
a pure function of the child id, the node table and the adjacency index
alone (whenever both parents' compilations complete). -/
theorem shared_child_compiled_equal
    (nodes : NodesMap) (cmap : String → List String)
    (p1 p2 c : String) (hne : p1 ≠ p2)
    (f1 f2 i1 i2 : Nat) (n1 n2 : TreeNode)
    (h1 : build_treeF f1 nodes cmap p1 = some n1)
    (h2 : build_treeF f2 nodes cmap p2 = some n2)
    (hc1 : (cmap p1).get? i1 = some c)
    (hc2 : (cmap p2).get? i2 = some c) :
    ∃ t, (childrenOf n1).get? i1 = some t ∧ (childrenOf n2).get? i2 = some t := by
  rcases build_treeF_some_inv h1 with ⟨g1, row1, built1, hf1, hrow1, hseq1, ht1⟩
  rcases build_treeF_some_inv h2 with ⟨g2, row2, built2, hf2, hrow2, hseq2, ht2⟩
  subst ht1
  subst ht2
  rw [childrenOf_mkNode, childrenOf_mkNode]
  rcases seqOpt_map_get _ _ _ hseq1 i1 c hc1 with ⟨t1, hb1, hg1⟩
  rcases seqOpt_map_get _ _ _ hseq2 i2 c hc2 with ⟨t2, hb2, hg2⟩
  have m1 := build_treeF_mono g1 nodes cmap c t1 (max g1 g2) (le_max_left g1 g2) hb1
  have m2 := build_treeF_mono g2 nodes cmap c t2 (max g1 g2) (le_max_right g1 g2) hb2
  rw [m1] at m2
  injection m2 with he
  exact ⟨t1, hg1, by rw [hg2, he]⟩

/-- Concrete fixture: a diamond family — 1 is parent of 2 and 3, and both
2 and 3 list 4 as a child. -/
def wNodes8 : NodesMap :=
  [("1", [("id", "1")]), ("2", [("id", "2")]), ("3", [("id", "3")]), ("4", [("id", "4")])]

/-- Concrete fixture: the diamond edge table. -/
def wEdges8 : List (String × String) := [("1", "2"), ("1", "3"), ("2", "4"), ("3", "4")]

/-- Concrete fixture: the diamond adjacency index. -/
def wCmap8 : String → List String := parse_edges (numericIds wNodes8) wEdges8

/-- Concrete fixture: parent 2 compiled over the diamond. -/
def wNode8a : TreeNode := (build_treeF 3 wNodes8 wCmap8 "2").getD emptyNode

/-- Concrete fixture: parent 3 compiled over the diamond. -/
def wNode8b : TreeNode := (build_treeF 3 wNodes8 wCmap8 "3").getD emptyNode

/-- Witness for claim C8 on the diamond fixture: the subtree for child
"4" under parent "2" equals the subtree for "4" under parent "3". -/
theorem shared_child_compiled_equal_witness :
    ∃ t, (childrenOf wNode8a).get? 0 = some t ∧ (childrenOf wNode8b).get? 0 = some t :=
  shared_child_compiled_equal wNodes8 wCmap8 "2" "3" "4" (by decide)
    3 3 0 0 wNode8a wNode8b (by rfl) (by rfl) (by rfl) (by rfl)

/-- Compactness predicate over an output tree: at every node of the tree,
the `children` key, when present, holds a non-empty list. -/
def noEmptyChildren : TreeNode → Bool
  | .mk _ _ _ _ _ _ _ _ _ _ _ none => true
  | .mk _ _ _ _ _ _ _ _ _ _ _ (some cs) =>
    !cs.isEmpty && (cs.attach.all (fun c => noEmptyChildren c.1))
termination_by t => sizeOf t
decreasing_by
  simp_wf
  have hlt := List.sizeOf_lt_of_mem c.2
  omega

/-- An assembled node dict is compact as soon as all already-built child
subtrees are: the empty list is stored as an absent key, a non-empty one
as a present key. -/
theorem noEmptyChildren_mkNode (node_id : String) (row : Row) (built : List TreeNode)
    (h : ∀ b ∈ built, noEmptyChildren b = true) :
    noEmptyChildren (mkNode node_id row built) = true := by
  cases built with
  | nil => simp [mkNode, noEmptyChildren.eq_def]
  | cons c0 cs =>
    simp only [mkNode, List.isEmpty_cons, Bool.false_eq_true, if_false]
    rw [noEmptyChildren.eq_def]
    simp only [List.isEmpty_cons, Bool.not_false, Bool.true_and, List.all_eq_true]
    intro z hz
    exact h z.1 z.2

/-- Concrete fixture: a cluster entry whose single declared root "9" is
absent from the node table. -/
def wEntry9 : ClusterEntry := ClusterEntry.mk (some "x") none ["9"]

/-- Counterexample to claim C9 as stated: the synthetic cluster root
always carries a `children` key, so a cluster whose declared roots are
all absent emits a TreeNode whose `children` key is present and holds
the empty array — an emitted node with an empty `children` list. -/
theorem cluster_root_empty_children :
    (build_cluster_treeF 1 wEntry9 [] wCmap0).map TreeNode.children
      = some (some ([] : List TreeNode)) := by
  rfl

/-- Claim C9 (amended): every node compiled by `build_tree` satisfies
compactness at every level — the `children` key is present only with a
non-empty list — while the synthetic cluster root always carries a
`children` key (possibly the empty array), its entries being compiled
subtrees that are again compact throughout. -/
theorem children_presence_amended :
    (∀ (fuel : Nat) (nodes : NodesMap) (cmap : String → List String) (node_id : String)
        (node : TreeNode), build_treeF fuel nodes cmap node_id = some node →
      noEmptyChildren node = true) ∧
    (∀ (fuel : Nat) (entry : ClusterEntry) (nodes : NodesMap) (cmap : String → List String)
        (node : TreeNode), build_cluster_treeF fuel entry nodes cmap = some node →
      (TreeNode.children node).isSome = true ∧
        ∀ c ∈ childrenOf node, noEmptyChildren c = true) := by
  have main : ∀ (fuel : Nat) (nodes : NodesMap) (cmap : String → List String)
      (node_id : String) (node : TreeNode),
      build_treeF fuel nodes cmap node_id = some node → noEmptyChildren node = true := by
    intro fuel
    induction fuel using Nat.strong_induction_on with
    | _ fuel ih =>
      intro nodes cmap node_id node hb
      rcases build_treeF_some_inv hb with ⟨f2, row, built, hf, hrow, hseq, ht⟩
      subst ht
      refine noEmptyChildren_mkNode node_id row built ?_
      intro b hbmem
      rcases seqOpt_map_mem _ _ _ hseq b hbmem with ⟨a, hamem, hba⟩
      exact ih f2 (by omega) nodes cmap a b hba
  refine ⟨main, ?_⟩
  intro fuel entry nodes cmap node hb
  cases hcs : buildClusterChildren fuel nodes cmap entry.roots with
  | none => simp [build_cluster_treeF, hcs] at hb
  | some cs =>
    have hnode : node = TreeNode.mk (clusterId entry) (clusterTitle entry)
        none none none none none none none none none (some cs) := by
      simp only [build_cluster_treeF, hcs] at hb
      injection hb with hb2
      exact hb2.symm
    subst hnode
    refine ⟨rfl, ?_⟩
    intro c hc
    simp only [childrenOf, TreeNode.children, Option.getD_some] at hc
    rw [buildClusterChildren_eq] at hcs
    rcases seqOpt_map_mem _ _ _ hcs c hc with ⟨r, hrmem, hbr⟩
    exact main fuel nodes cmap r c hbr

/-- Witness for claim C9 (amended): the concrete pipeline node `wNode7`
is compact throughout. -/
theorem children_presence_amended_witness :
    noEmptyChildren wNode7 = true :=
  children_presence_amended.1 2 (filterNumericNodes wNodes7)
    (parse_edges (numericIds wNodes7) wEdges7) "1" wNode7 (by rfl)

/-- Concrete fixture: a node table with two numeric rows forming a
cycle with `wEdgesCyc`. -/
def wNodesCyc : NodesMap := [("1", [("id", "1"), ("name", "A")]), ("2", [("id", "2"), ("name", "B")])]

/-- Concrete fixture: a cyclic edge table, 1→2 and 2→1. -/
def wEdgesCyc : List (String × String) := [("1", "2"), ("2", "1")]

/-- Concrete fixture: the adjacency index built from the cyclic edge
table through the loader. -/
def wCmapCyc : String → List String := parse_edges (numericIds wNodesCyc) wEdgesCyc

/-- Claim C1 (refuted by the code): `build_tree` has no recursion-path
guard, so on the cyclic edge table 1→2→1 the compilation started at "1"
never completes at any recursion depth — the fuel model returns `none`
for every bound, reflecting the script's unbounded recursion (Python
stack exhaustion) instead of terminating with the second occurrence
rendered as a leaf. -/
theorem cyclic_input_never_completes :
    ∀ fuel : Nat,
      build_treeF fuel (filterNumericNodes wNodesCyc) wCmapCyc "1" = none ∧
      build_treeF fuel (filterNumericNodes wNodesCyc) wCmapCyc "2" = none := by
  intro fuel
  induction fuel with
  | zero => exact ⟨rfl, rfl⟩
  | succ f ih =>
    constructor
    · rw [build_treeF_succ]
      rw [show wCmapCyc "1" = ["2"] from rfl, List.map_cons, List.map_nil]
      rw [ih.2]
      rfl
    · rw [build_treeF_succ]
      rw [show wCmapCyc "2" = ["1"] from rfl, List.map_cons, List.map_nil]
      rw [ih.1]
      rfl
